import Mathlib

/-!
# Verification of the minimal spreadsheet package codec

Shallow embedding of the fallback OOXML codec in
`src/build_governance_audit.py` (`_col_letters`, `_read_shared_strings`,
`_sheet_path_by_name`, `_cell_text`, `_read_sheet_rows`, `_write_xlsx`),
together with proofs of the specified properties.

Modelling conventions:
* Python `dict`s are association lists built with `dinsert`, which models
  Python's insertion-ordered dictionaries: inserting an existing key
  overwrites the value in place, a new key is appended at the end.
* XML parts are modelled at the parsed-element level (the information
  `xml.etree.ElementTree` hands back to the reader).  The writer's
  serialized strings are modelled separately where a claim is about the
  serialized text itself.
* Machine integers are `Nat`/`Int`; all arithmetic in the codec is on
  small nonnegative values, where Python and Lean semantics agree.
-/

namespace GovAudit

/-- Python-dict insertion: overwrite in place if the key exists, else append. -/
def dinsert {κ α : Type} [DecidableEq κ] (d : List (κ × α)) (k : κ) (v : α) :
    List (κ × α) :=
  if d.any (fun p => decide (p.1 = k)) then
    d.map (fun p => if p.1 = k then (k, v) else p)
  else
    d ++ [(k, v)]

/-- Build a Python dict from a list of key/value pairs (dict comprehension /
`dict(zip(...))`). -/
def pyDict {κ α : Type} [DecidableEq κ] (ps : List (κ × α)) : List (κ × α) :=
  ps.foldl (fun d p => dinsert d p.1 p.2) []

/-- Python `d.get(k, dflt)`. -/
def lookupD {κ α : Type} [DecidableEq κ] (d : List (κ × α)) (k : κ) (dflt : α) : α :=
  match d.find? (fun p => decide (p.1 = k)) with
  | some p => p.2
  | none => dflt

/-- Python `k in d` / `d[k]` as an optional lookup. -/
def plookup {κ α : Type} [DecidableEq κ] (d : List (κ × α)) (k : κ) : Option α :=
  match d.find? (fun p => decide (p.1 = k)) with
  | some p => some p.2
  | none => none

/-! ### Python string primitives

The codec uses Python's `str.strip`, `str.lower`, `str.replace` and `int()`.
They are modelled directly over the character list of the string (the texts
the codec handles are ASCII; for them Python's and these definitions'
semantics coincide). -/

/-- Python `s.strip()`: remove leading and trailing whitespace. -/
def pyStrip (s : String) : String :=
  ⟨((s.data.dropWhile Char.isWhitespace).reverse.dropWhile
      Char.isWhitespace).reverse⟩

/-- Python `s.lower()` (ASCII case folding). -/
def pyLower (s : String) : String := ⟨s.data.map Char.toLower⟩

/-- One pass of Python `s.replace(pat, rep)` over the character list, with a
fuel bound on the number of steps: each step consumes at least one character
of the subject (the patterns used by the codec are nonempty), so fuel equal
to the subject's length suffices. -/
def replaceGo (pat rep : List Char) : Nat → List Char → List Char
  | _, [] => []
  | 0, cs => cs
  | f + 1, c :: rest =>
    if pat.isPrefixOf (c :: rest) then
      rep ++ replaceGo pat rep f ((c :: rest).drop pat.length)
    else c :: replaceGo pat rep f rest

/-- Python `s.replace(pat, rep)`: replace every non-overlapping occurrence,
left to right. -/
def pyReplace (s pat rep : String) : String :=
  ⟨replaceGo pat.data rep.data s.data.length s.data⟩

/-- The digit-accumulation loop of an integer literal. -/
def digitsToNat (ds : List Char) : Nat :=
  ds.foldl (fun a c => a * 10 + (c.toNat - 48)) 0

/-- Python `int(s)` on the integer literals occurring in worksheet parts:
optional surrounding whitespace, optional sign, one or more ASCII digits;
anything else raises `ValueError` (`none` here). -/
def pyInt? (s : String) : Option Int :=
  match (pyStrip s).data with
  | [] => none
  | '+' :: ds =>
    if ds ≠ [] ∧ ds.all Char.isDigit then some (digitsToNat ds : Int) else none
  | '-' :: ds =>
    if ds ≠ [] ∧ ds.all Char.isDigit then some (-(digitsToNat ds : Int))
    else none
  | ds =>
    if ds.all Char.isDigit then some (digitsToNat ds : Int) else none

/-! ## Column letter codec (`_col_letters`, lines 77-82)

```python
def _col_letters(index: int) -> str:
    letters = ""
    while index > 0:
        index, rem = divmod(index - 1, 26)
        letters = chr(65 + rem) + letters
    return letters
```

The loop body prepends one character per iteration; each iteration strictly
decreases the (positive) index, so the loop runs at most `index` times.
`clGo` is the loop with an explicit iteration bound (`fuel`); inside the
loop the index is positive, so the arithmetic is `Nat` arithmetic. -/

/-- The `while index > 0` loop of `_col_letters`, with a fuel bound on the
number of iterations.  One iteration turns index `i > 0` into `(i-1)/26` and
prepends the character `chr(65 + (i-1) % 26)` (prepending by the earlier
iteration means the recursive result is appended on the left). -/
def clGo (fuel i : Nat) : List Char :=
  match fuel with
  | 0 => []
  | f + 1 =>
    if i = 0 then []
    else clGo f ((i - 1) / 26) ++ [Char.ofNat (65 + (i - 1) % 26)]

/-- Model of `_col_letters`: for `index <= 0` the loop body never runs and the empty
string is returned; for positive index the loop runs on nonnegative values,
at most `index` iterations. -/
def _col_letters (index : Int) : String :=
  if index > 0 then ⟨clGo index.toNat index.toNat⟩ else ""

/-! ## Reader-side column-letter decoding (`_read_sheet_rows`, lines 154-157)

```python
col_index = 0
for ch in col_letters:
    col_index = col_index * 26 + (ord(ch) - 64)
```
-/

/-- The reader's letters-to-column-index loop over the characters captured by
the `([A-Z]+)` group. -/
def decodeLetters (letters : List Char) : Nat :=
  letters.foldl (fun a c => a * 26 + (c.toNat - 64)) 0

/-! ## Read-side data model

A `Package` is the parsed view of the zip archive's XML parts as the reader
consumes them:
* `sharedStrings`: `xl/sharedStrings.xml` if present — a list of `si`
  elements, each a list of the texts of its `t` descendants (an element's
  `text` is `Option String`, `none` when the element has no text node);
* `sheets`: the `sheet` elements of `xl/workbook.xml` (attributes `name` and
  `r:id`, either of which may be absent);
* `rels`: the `Relationship` elements of `xl/_rels/workbook.xml.rels` as
  `(Id, Target)` pairs, in document order;
* `worksheets`: parts by path; each worksheet is its `row` elements in
  document order, each row its `c` (cell) elements. -/

/-- A parsed worksheet cell: `r` attribute (defaulted to `""` when absent, as
`cell.attrib.get("r", "")` does), `t` attribute, the text of a `v` child
(`none` when there is no `v` child or its text is `None`), and the text of a
nested `t` element for inline strings (`none` when absent or `None`). -/
structure XCell where
  r : String
  t : Option String
  v : Option String
  inl : Option String
  deriving DecidableEq, Repr

/-- A `sheet` element of the workbook manifest. -/
structure SheetDecl where
  name : Option String
  rid : Option String
  deriving DecidableEq, Repr

/-- The parsed view of a package. -/
structure Package where
  sharedStrings : Option (List (List (Option String)))
  sheets : List SheetDecl
  rels : List (String × String)
  worksheets : List (String × List (List XCell))
  deriving DecidableEq, Repr

/-! ## Shared string table decoder (`_read_shared_strings`, lines 85-94)

```python
try:
    root = ET.fromstring(zf.read("xl/sharedStrings.xml"))
except KeyError:
    return []
out: list[str] = []
for si in root.findall(...si):
    texts = [t.text or "" for t in si.findall(.//t)]
    out.append("".join(texts))
return out
```
-/

/-- Model of `_read_shared_strings`: absent part yields `[]`; otherwise each `si`
element contributes the concatenation of its `t` texts (`t.text or ""`). -/
def _read_shared_strings (part : Option (List (List (Option String)))) :
    List String :=
  match part with
  | none => []
  | some sis => sis.map (fun ts => String.join (ts.map (fun t => t.getD "")))

/-! ## Cell text resolution (`_cell_text`, lines 121-133)

```python
cell_type = cell.attrib.get("t")
if cell_type == "s":
    v = cell.find(v)
    if v is None or v.text is None:
        return ""
    idx = int(v.text)
    return shared_strings[idx] if 0 <= idx < len(shared_strings) else ""
if cell_type == "inlineStr":
    t = cell.find(.//t)
    return t.text if t is not None and t.text else ""
v = cell.find(v)
return v.text if v is not None and v.text is not None else ""
```

`int(v.text)` raises `ValueError` on a non-integer literal; that failure is
modelled as the `Except.error` case (`String.toInt?` models `int()` on the
canonical integer literals that occur in worksheet parts). -/

/-- Model of `_cell_text`.  The error case is Python's uncaught `ValueError` from
`int()`. -/
def _cell_text (cell : XCell) (shared_strings : List String) :
    Except String String :=
  match cell.t with
  | some "s" =>
    match cell.v with
    | none => .ok ""
    | some s =>
      match pyInt? s with
      | none => .error "invalid literal for int()"
      | some idx =>
        .ok (if 0 ≤ idx ∧ idx < (shared_strings.length : Int) then
              shared_strings.getD idx.toNat "" else "")
  | some "inlineStr" => .ok (cell.inl.getD "")
  | _ => .ok (cell.v.getD "")

/-! ## Sheet resolver (`_sheet_path_by_name`, lines 97-118) -/

/-- The local `norm` helper (line 103-104): `s.strip().lower()`. -/
def pynorm (s : String) : String := pyLower (pyStrip s)

/-- Whether a declared sheet matches the requested name under the source's
single-pass condition (line 108):
`s.attrib.get("name") == sheet_name or norm(s.attrib.get("name", "")) == norm(sheet_name)`. -/
def sheetMatches (sheetName : String) (s : SheetDecl) : Bool :=
  s.name == some sheetName || pynorm (s.name.getD "") == pynorm sheetName

/-- The `for s in sheets: ... break` loop (lines 107-110): the first sheet
satisfying `sheetMatches` wins. -/
def findTargetSheet (sheets : List SheetDecl) (sheetName : String) :
    Option SheetDecl :=
  match sheets with
  | [] => none
  | s :: rest =>
    if sheetMatches sheetName s then some s
    else findTargetSheet rest sheetName

/-- Python `target.lstrip("/")`. -/
def lstripSlash (s : String) : String := ⟨s.data.dropWhile (fun c => c == '/')⟩

/-- Model of `_sheet_path_by_name`: build the relationship dict, find the first
matching sheet, then resolve its `r:id` through the dict.  `if not rel_id`
is Python truthiness: both a missing attribute and an empty string fail. -/
def _sheet_path_by_name (pkg : Package) (sheet_name : String) :
    Except String String :=
  let rel_map := pyDict pkg.rels
  match findTargetSheet pkg.sheets sheet_name with
  | none => .error ("Sheet not found: " ++ sheet_name)
  | some s =>
    match s.rid with
    | none => .error ("Relationship not found for sheet " ++ sheet_name)
    | some rid =>
      if rid = "" then .error ("Relationship not found for sheet " ++ sheet_name)
      else
        match plookup rel_map rid with
        | none => .error ("Relationship not found for sheet " ++ sheet_name)
        | some target => .ok ("xl/" ++ lstripSlash target)

/-! ## Row materializer (`_read_sheet_rows`, lines 136-167) -/

/-- Model of `re.match(r"([A-Z]+)(\d+)", ref)` (line 151): `re.match` anchors at the
start only.  The greedy `[A-Z]+` takes the maximal leading uppercase run
(backtracking a shorter run only exposes another uppercase letter, never a
digit), and `(\d+)` then requires a digit right after it; whatever follows
the digits is ignored.  Returns the captured letters group on success
(ASCII `[A-Z]` and ASCII digits, as produced by the format). -/
def refMatch? (ref : String) : Option (List Char) :=
  let cs := ref.data
  let letters := cs.takeWhile (fun c => 'A' ≤ c && c ≤ 'Z')
  match cs.drop letters.length with
  | [] => none
  | d :: _ => if letters ≠ [] && d.isDigit then some letters else none

/-- The inner cell loop of `_read_sheet_rows` (lines 148-158): cells whose
reference fails the regex are skipped (`continue`); otherwise the cell's
text is stored under its decoded column index.  The `Except` propagates
`_cell_text`'s `int()` failure. -/
def parseRow (shared : List String) (cells : List XCell) :
    Except String (List (Nat × String)) :=
  cells.foldlM
    (fun row_data cell =>
      match refMatch? cell.r with
      | none => pure row_data
      | some letters => do
        let txt ← _cell_text cell shared
        pure (dinsert row_data (decodeLetters letters) txt))
    []

/-- Line 162: `{idx: val.strip() for idx, val in header_map.items() if val.strip()}`. -/
def buildHeaders (header_map : List (Nat × String)) : List (Nat × String) :=
  header_map.foldl
    (fun acc p =>
      if pyStrip p.2 = "" then acc else dinsert acc p.1 (pyStrip p.2))
    []

/-- Line 165: `{hdr: row_data.get(idx, "") for idx, hdr in headers.items()}`. -/
def rekeyRow (headers : List (Nat × String)) (row_data : List (Nat × String)) :
    List (String × String) :=
  headers.foldl (fun acc p => dinsert acc p.2 (lookupD row_data p.1 "")) []

/-- Model of `_read_sheet_rows`: read the shared strings, resolve the sheet path, read
the worksheet part (a missing part is `zipfile`'s `KeyError`), parse every
row, then treat row 1 as the header and re-key the remaining rows.  An empty
worksheet returns `[]` (line 143-144). -/
def _read_sheet_rows (pkg : Package) (sheet_name : String) :
    Except String (List (List (String × String))) := do
  let shared := _read_shared_strings pkg.sharedStrings
  let sheet_path ← _sheet_path_by_name pkg sheet_name
  let ws ←
    match plookup pkg.worksheets sheet_path with
    | some w => Except.ok w
    | none => Except.error ("missing part " ++ sheet_path)
  match ws with
  | [] => pure []
  | r0 :: rest => do
    let header_map ← parseRow shared r0
    let parsed ← rest.mapM (parseRow shared)
    let headers := buildHeaders header_map
    pure (parsed.map (rekeyRow headers))

/-! ## Package writer (`_write_xlsx`, lines 170-217) -/

/-- Column widths (lines 171-176): per header, the running maximum of the
header length and every row's value length for that column, then
`min(max(max_len + 2, 16), 60)`. -/
def colWidths (headers : List String) (rows : List (List (String × String))) :
    List Nat :=
  headers.map (fun h =>
    min (max ((rows.foldl (fun m row => max m (lookupD row h "").length)
                h.length) + 2) 16) 60)

/-- Line 195: `(value or "").replace("&", "&amp;").replace("<", "&lt;").replace(">", "&gt;")`
(ampersand first). -/
def escapeXml (value : String) : String :=
  pyReplace (pyReplace (pyReplace value "&" "&amp;") "<" "&lt;") ">" "&gt;"

/-- Model of `inline_cell` (lines 194-196): the serialized inline-string cell. -/
def inline_cell (ref value : String) : String :=
  "<c r=\"" ++ ref ++ "\" t=\"inlineStr\"><is><t>" ++ escapeXml value ++
    "</t></is></c>"

/-- Line 199: `all_rows = [dict(zip(headers, headers)), *rows]` — the header
row followed by the data rows. -/
def allRowsW (headers : List String) (rows : List (List (String × String))) :
    List (List (String × String)) :=
  pyDict (headers.zip headers) :: rows

/-- The cell loop of lines 202-204, serialized form: for 1-based column
`c_idx` and header `h`, the cell `inline_cell(f"{_col_letters(c_idx)}{r_idx}",
str(row.get(h, "")))`. -/
def writtenRowCellsXml (headers : List String) (row : List (String × String))
    (r_idx : Nat) : List String :=
  headers.enum.map (fun p =>
    inline_cell (_col_letters ((p.1 + 1 : Nat) : Int) ++ toString r_idx)
      (lookupD row p.2 ""))

/-- Line 205: one serialized `row` element. -/
def writtenRowXml (headers : List String) (row : List (String × String))
    (r_idx : Nat) : String :=
  "<row r=\"" ++ toString r_idx ++ "\">" ++
    String.join (writtenRowCellsXml headers row r_idx) ++ "</row>"

/-- The same cell loop at the parsed-element level: serializing one of these
cells with `inline_cell` and parsing it back yields the cell again (XML
escaping applied on write is undone by the parser), so the parsed view
carries the unescaped value as the inline text. -/
def writtenRowCells (headers : List String) (row : List (String × String))
    (r_idx : Nat) : List XCell :=
  headers.enum.map (fun p =>
    { r := _col_letters ((p.1 + 1 : Nat) : Int) ++ toString r_idx
      t := some "inlineStr"
      v := none
      inl := some (lookupD row p.2 "") })

/-- Model of `_write_xlsx` at the parsed-package level: the workbook part declares
exactly one sheet named `sheet_name` with relationship id `rId1`; the
workbook relationships map `rId1` to `worksheets/sheet1.xml` (and `rId2` to
the styles part); the worksheet part holds the header row followed by the
data rows, one cell per header; no shared-string part is written. -/
def _write_xlsx (sheet_name : String) (rows : List (List (String × String)))
    (headers : List String) : Package :=
  { sharedStrings := none
    sheets := [{ name := some sheet_name, rid := some "rId1" }]
    rels := [("rId1", "worksheets/sheet1.xml"), ("rId2", "styles.xml")]
    worksheets :=
      [("xl/worksheets/sheet1.xml",
        (allRowsW headers rows).enum.map
          (fun p => writtenRowCells headers p.2 (p.1 + 1)))] }

/-- Constant `OUTPUT_SHEET` (line 18): the configured output sheet name. -/
def OUTPUT_SHEET : String := "Governance Audit"

/-! ## Spec-modelled definitions (for refinement comparison only) -/

/-- Modelled from the spec (§4.3 Step 2): two-phase sheet resolution — "attempt
an exact name match first; if none, attempt a case-insensitive,
whitespace-trimmed match. First match wins in declaration order."  Only the
sheet-selection phase differs from `_sheet_path_by_name`; the relationship
resolution is shared. -/
def sheetPathByNameTwoPhase (pkg : Package) (sheet_name : String) :
    Except String String :=
  let rel_map := pyDict pkg.rels
  let target :=
    match pkg.sheets.find? (fun s => s.name == some sheet_name) with
    | some s => some s
    | none =>
      pkg.sheets.find? (fun s => pynorm (s.name.getD "") == pynorm sheet_name)
  match target with
  | none => .error ("Sheet not found: " ++ sheet_name)
  | some s =>
    match s.rid with
    | none => .error ("Relationship not found for sheet " ++ sheet_name)
    | some rid =>
      if rid = "" then .error ("Relationship not found for sheet " ++ sheet_name)
      else
        match plookup rel_map rid with
        | none => .error ("Relationship not found for sheet " ++ sheet_name)
        | some target => .ok ("xl/" ++ lstripSlash target)

/-- Modelled from the spec (§3 Column Width): the per-column formula
`min(max(max(len(header), max(len(value) for value in column)) + 2, 16), 60)`,
with the maximum over an empty column read as 0. -/
def columnWidthSpec (header : String) (values : List String) : Nat :=
  min (max (max header.length (values.foldl (fun a v => max a v.length) 0) + 2)
        16) 60

/-! ## Concrete test packages -/

/-- A package whose resolved worksheet part contains zero `row` elements. -/
def pkgEmptySheet : Package :=
  { sharedStrings := none
    sheets := [{ name := some "S", rid := some "rId1" }]
    rels := [("rId1", "worksheets/sheet1.xml")]
    worksheets := [("xl/worksheets/sheet1.xml", [])] }

/-- A package whose worksheet contains cells with the malformed references
`"1A"` and `"A"` next to well-formed cells. -/
def pkgMalformedRefs : Package :=
  { sharedStrings := none
    sheets := [{ name := some "S", rid := some "rId1" }]
    rels := [("rId1", "worksheets/sheet1.xml")]
    worksheets :=
      [("xl/worksheets/sheet1.xml",
        [[{ r := "A1", t := none, v := some "H", inl := none }],
         [{ r := "1A", t := none, v := some "x", inl := none },
          { r := "A", t := none, v := some "y", inl := none },
          { r := "A2", t := none, v := some "v", inl := none }]])] }

/-- A package whose first declared sheet matches a request only
case-insensitively while its second declared sheet matches exactly. -/
def pkgTwoSheets : Package :=
  { sharedStrings := none
    sheets := [{ name := some "DATA INDEX", rid := some "rId1" },
               { name := some "data index", rid := some "rId2" }]
    rels := [("rId1", "worksheets/sheet1.xml"),
             ("rId2", "worksheets/sheet2.xml")]
    worksheets := [] }

/-! # Theorems -/

/-! ## Column-letter codec lemmas -/

theorem decodeLetters_append_singleton (xs : List Char) (c : Char) :
    decodeLetters (xs ++ [c]) = decodeLetters xs * 26 + (c.toNat - 64) := by
  simp [decodeLetters, List.foldl_append]

theorem char_ofNat_toNat_letter (r : Nat) (h : r < 26) :
    (Char.ofNat (65 + r)).toNat = 65 + r := by
  interval_cases r <;> decide

/-- Main codec round trip: with enough fuel, decoding the letters produced by
the encoding loop recovers the index. -/
theorem decodeLetters_clGo (fuel : Nat) :
    ∀ i : Nat, i ≤ fuel → decodeLetters (clGo fuel i) = i := by
  induction fuel with
  | zero =>
    intro i hi
    interval_cases i
    simp [clGo, decodeLetters]
  | succ f ih =>
    intro i hi
    by_cases h0 : i = 0
    · subst h0; simp [clGo, decodeLetters]
    · have hpos : 1 ≤ i := Nat.one_le_iff_ne_zero.mpr h0
      have hrec : (i - 1) / 26 ≤ f := by
        have h1 : (i - 1) / 26 ≤ i - 1 := Nat.div_le_self _ _
        omega
      have hchar : (Char.ofNat (65 + (i - 1) % 26)).toNat = 65 + (i - 1) % 26 :=
        char_ofNat_toNat_letter _ (Nat.mod_lt _ (by omega))
      have hdm : (i - 1) / 26 * 26 + (i - 1) % 26 = i - 1 := by
        have := Nat.div_add_mod (i - 1) 26
        omega
      rw [clGo, if_neg h0, decodeLetters_append_singleton, ih _ hrec, hchar]
      omega

theorem colLetters_decode (n : Nat) :
    decodeLetters (_col_letters (n : Int)).data = n := by
  by_cases h0 : n = 0
  · subst h0; simp [_col_letters, decodeLetters]
  · have hpos : (0 : Int) < (n : Int) := by
      exact_mod_cast Nat.pos_of_ne_zero h0
    simp only [_col_letters, if_pos hpos, Int.toNat_natCast]
    exact decodeLetters_clGo n n le_rfl

/-! ## Python-dict lemmas -/

theorem dinsert_append {κ α : Type} [DecidableEq κ] (d : List (κ × α)) (k : κ)
    (v : α) (h : ∀ p ∈ d, p.1 ≠ k) : dinsert d k v = d ++ [(k, v)] := by
  have hany : d.any (fun p => decide (p.1 = k)) = false := by
    simp only [List.any_eq_false, decide_eq_true_eq]
    exact h
  rw [dinsert, hany]
  simp

theorem mem_keys_dinsert {κ α : Type} [DecidableEq κ] (d : List (κ × α))
    (k : κ) (v : α) (x : κ) :
    x ∈ (dinsert d k v).map Prod.fst ↔ x ∈ d.map Prod.fst ∨ x = k := by
  rw [dinsert]
  by_cases hany : d.any (fun p => decide (p.1 = k)) = true
  · have hk : k ∈ d.map Prod.fst := by
      simp only [List.any_eq_true, decide_eq_true_eq] at hany
      obtain ⟨p, hp, hpk⟩ := hany
      exact hpk ▸ List.mem_map_of_mem Prod.fst hp
    have hunchanged :
        (d.map (fun p => if p.1 = k then (k, v) else p)).map Prod.fst =
          d.map Prod.fst := by
      rw [List.map_map]
      refine List.map_congr_left ?_
      intro p _
      by_cases hpk : p.1 = k <;> simp [hpk]
    rw [if_pos hany, hunchanged]
    constructor
    · exact Or.inl
    · rintro (hx | rfl)
      · exact hx
      · exact hk
  · rw [if_neg hany]
    simp

/-- The `buildHeaders` fold, generalized over the accumulator: with distinct
column indices it appends exactly the trimmed non-blank entries. -/
theorem buildHeaders_go_eq (hm : List (Nat × String)) :
    ∀ acc : List (Nat × String),
      (hm.map Prod.fst).Nodup →
      (∀ x ∈ acc.map Prod.fst, x ∉ hm.map Prod.fst) →
      hm.foldl
          (fun acc p =>
            if pyStrip p.2 = "" then acc else dinsert acc p.1 (pyStrip p.2))
          acc =
        acc ++ hm.filterMap
          (fun p =>
            if pyStrip p.2 = "" then none else some (p.1, pyStrip p.2)) := by
  induction hm with
  | nil => intro acc _ _; simp
  | cons q t ih =>
    intro acc hnodup hfresh
    rw [List.map_cons, List.nodup_cons] at hnodup
    by_cases hblank : pyStrip q.2 = ""
    · rw [List.foldl_cons, List.filterMap_cons, if_pos hblank, if_pos hblank]
      exact ih acc hnodup.2
        (fun x hx => fun hmem => hfresh x hx (List.mem_cons_of_mem _ hmem))
    · rw [List.foldl_cons, List.filterMap_cons, if_neg hblank, if_neg hblank]
      have hq1 : ∀ p ∈ acc, p.1 ≠ q.1 := by
        intro p hp
        exact fun he =>
          hfresh p.1 (List.mem_map_of_mem Prod.fst hp)
            (he ▸ List.mem_cons_self _ _)
      rw [dinsert_append acc q.1 (pyStrip q.2) hq1]
      rw [ih (acc ++ [(q.1, pyStrip q.2)]) hnodup.2 ?_]
      · simp
      · intro x hx
        rw [List.map_append, List.mem_append] at hx
        rcases hx with hx | hx
        · exact fun hmem => hfresh x hx (List.mem_cons_of_mem _ hmem)
        · simp only [List.map_cons, List.map_nil, List.mem_singleton] at hx
          exact hx ▸ hnodup.1

theorem buildHeaders_eq_filterMap (hm : List (Nat × String))
    (h : (hm.map Prod.fst).Nodup) :
    buildHeaders hm =
      hm.filterMap
        (fun p => if pyStrip p.2 = "" then none else some (p.1, pyStrip p.2)) := by
  rw [buildHeaders, buildHeaders_go_eq hm [] h (by simp)]
  simp

/-- Keys already in the accumulator survive the `rekeyRow` fold. -/
theorem rekey_go_keys_mono (headers : List (Nat × String))
    (row_data : List (Nat × String)) :
    ∀ (acc : List (String × String)) (x : String),
      x ∈ acc.map Prod.fst →
      x ∈ (headers.foldl
            (fun acc p => dinsert acc p.2 (lookupD row_data p.1 "")) acc).map
          Prod.fst := by
  induction headers with
  | nil => intro acc x hx; simpa using hx
  | cons q t ih =>
    intro acc x hx
    rw [List.foldl_cons]
    exact ih _ x ((mem_keys_dinsert _ _ _ _).mpr (Or.inl hx))

/-- Every header name ends up among the keys produced by the `rekeyRow` fold. -/
theorem rekey_go_mem_keys (headers : List (Nat × String))
    (row_data : List (Nat × String)) :
    ∀ (acc : List (String × String)) (p : Nat × String), p ∈ headers →
      p.2 ∈ (headers.foldl
            (fun acc p => dinsert acc p.2 (lookupD row_data p.1 "")) acc).map
          Prod.fst := by
  induction headers with
  | nil => intro acc p hp; exact absurd hp (List.not_mem_nil p)
  | cons q t ih =>
    intro acc p hp
    rw [List.foldl_cons]
    rcases List.mem_cons.mp hp with rfl | hp
    · exact rekey_go_keys_mono t row_data _ p.2
        ((mem_keys_dinsert _ _ _ _).mpr (Or.inr rfl))
    · exact ih _ p hp

/-- The `rekeyRow` fold, generalized over the accumulator: with distinct
header names it appends one entry per header, pairing the name with the
row's value at that column (empty string when the column is absent). -/
theorem rekey_go_eq_append (headers : List (Nat × String))
    (row_data : List (Nat × String)) :
    ∀ acc : List (String × String),
      (headers.map Prod.snd).Nodup →
      (∀ x ∈ acc.map Prod.fst, x ∉ headers.map Prod.snd) →
      headers.foldl
          (fun acc p => dinsert acc p.2 (lookupD row_data p.1 "")) acc =
        acc ++ headers.map (fun p => (p.2, lookupD row_data p.1 "")) := by
  induction headers with
  | nil => intro acc _ _; simp
  | cons q t ih =>
    intro acc hnodup hfresh
    rw [List.map_cons, List.nodup_cons] at hnodup
    rw [List.foldl_cons, List.map_cons]
    have hq2 : ∀ p ∈ acc, p.1 ≠ q.2 := by
      intro p hp
      exact fun he =>
        hfresh p.1 (List.mem_map_of_mem Prod.fst hp)
          (he ▸ List.mem_cons_self _ _)
    rw [dinsert_append acc q.2 (lookupD row_data q.1 "") hq2]
    rw [ih (acc ++ [(q.2, lookupD row_data q.1 "")]) hnodup.2 ?_]
    · simp
    · intro x hx
      rw [List.map_append, List.mem_append] at hx
      rcases hx with hx | hx
      · exact fun hmem => hfresh x hx (List.mem_cons_of_mem _ hmem)
      · simp only [List.map_cons, List.map_nil, List.mem_singleton] at hx
        exact hx ▸ hnodup.1

theorem rekeyRow_eq_map (headers : List (Nat × String))
    (row_data : List (Nat × String)) (h : (headers.map Prod.snd).Nodup) :
    rekeyRow headers row_data =
      headers.map (fun p => (p.2, lookupD row_data p.1 "")) := by
  rw [rekeyRow, rekey_go_eq_append headers row_data [] h (by simp)]
  simp

/-! ## Claim theorems -/

/-- Claim C1: writing headers `["Name","Age"]` with rows
`[{"Name":"Ann","Age":"30"}, {"Name":"Bo","Age":"4"}]` via the package
writer and reading the produced package back with the sheet resolver and row
materializer under the configured output sheet name yields per-row header
keys `["Name","Age"]` and the same two rows in the same order. -/
theorem C1_write_read_round_trip :
    _read_sheet_rows
        (_write_xlsx OUTPUT_SHEET
          [[("Name", "Ann"), ("Age", "30")], [("Name", "Bo"), ("Age", "4")]]
          ["Name", "Age"])
        OUTPUT_SHEET =
      Except.ok
        [[("Name", "Ann"), ("Age", "30")], [("Name", "Bo"), ("Age", "4")]] ∧
    Except.map (fun out => out.map (fun row => row.map Prod.fst))
        (_read_sheet_rows
          (_write_xlsx OUTPUT_SHEET
            [[("Name", "Ann"), ("Age", "30")], [("Name", "Bo"), ("Age", "4")]]
            ["Name", "Age"])
          OUTPUT_SHEET) =
      Except.ok [["Name", "Age"], ["Name", "Age"]] := by
  constructor <;> rfl

/-- Claim C2: `_col_letters` sends 1 to "A", 26 to "Z", 27 to "AA", 702 to
"ZZ", 703 to "AAA", and for every `n` in `[1, 16384]` the reader's
letters-to-index loop decodes `_col_letters n` back to `n`. -/
theorem C2_col_letters_round_trip :
    _col_letters 1 = "A" ∧ _col_letters 26 = "Z" ∧ _col_letters 27 = "AA" ∧
    _col_letters 702 = "ZZ" ∧ _col_letters 703 = "AAA" ∧
    ∀ n : Nat, 1 ≤ n → n ≤ 16384 →
      decodeLetters (_col_letters (n : Int)).data = n := by
  refine ⟨rfl, rfl, rfl, rfl, rfl, ?_⟩
  intro n _ _
  exact colLetters_decode n

theorem C2_col_letters_round_trip_witness :
    decodeLetters (_col_letters ((16384 : Nat) : Int)).data = 16384 :=
  C2_col_letters_round_trip.2.2.2.2.2 16384 (by decide) (by decide)

/-- Claim C10: for every integer index ≤ 0, `_col_letters` returns the empty
string (the encoder is total and does not reject out-of-range indices). -/
theorem C10_col_letters_nonpositive (index : Int) (h : index ≤ 0) :
    _col_letters index = "" := by
  rw [_col_letters, if_neg (by omega)]

theorem C10_col_letters_nonpositive_witness :
    _col_letters (-5) = "" :=
  C10_col_letters_nonpositive (-5) (by decide)

/-- Claim C6: a shared-string lookup whose parsed index falls outside
`[0, length)` yields the empty string and no error, and an absent
shared-strings part decodes to the empty sequence. -/
theorem C6_shared_string_leniency :
    (∀ (shared : List String) (cell : XCell) (s : String) (idx : Int),
        cell.t = some "s" → cell.v = some s → pyInt? s = some idx →
        (idx < 0 ∨ (shared.length : Int) ≤ idx) →
        _cell_text cell shared = Except.ok "") ∧
    _read_shared_strings none = [] := by
  constructor
  · intro shared cell s idx ht hv hparse hrange
    simp only [_cell_text, ht, hv, hparse]
    rw [if_neg (by omega)]
  · rfl

theorem C6_shared_string_leniency_witness :
    _cell_text { r := "A1", t := some "s", v := some "5", inl := none }
      ["a", "b", "c"] = Except.ok "" :=
  C6_shared_string_leniency.1 ["a", "b", "c"]
    { r := "A1", t := some "s", v := some "5", inl := none } "5" 5 rfl rfl
    (by decide) (by decide)

/-- Claim C3 counterexample: a package whose resolved worksheet part contains
zero row elements materializes to `Except.ok []` — an empty result, not an
`EmptySheet` failure. -/
theorem C3_counterexample_empty_sheet_ok :
    _read_sheet_rows pkgEmptySheet "S" = Except.ok [] := rfl

/-- Claim C3 amended: for every worksheet part containing zero row elements,
row materialization returns the empty list of rows (it does not fail). -/
theorem C3_empty_sheet_returns_empty (pkg : Package) (sheet_name path : String)
    (h1 : _sheet_path_by_name pkg sheet_name = Except.ok path)
    (h2 : plookup pkg.worksheets path = some []) :
    _read_sheet_rows pkg sheet_name = Except.ok [] := by
  have hbind : ∀ {α β : Type} (a : α) (f : α → Except String β),
      (Except.ok a >>= f) = f a := fun _ _ => rfl
  simp only [_read_sheet_rows, h1, hbind, h2]
  rfl

theorem C3_empty_sheet_returns_empty_witness :
    _read_sheet_rows pkgEmptySheet "S" = Except.ok [] :=
  C3_empty_sheet_returns_empty pkgEmptySheet "S" "xl/worksheets/sheet1.xml"
    rfl rfl

/-- Claim C4 counterexample: a worksheet containing cells with references
`"1A"` and `"A"` materializes successfully (the malformed cells are skipped);
no `MalformedReference` failure occurs. -/
theorem C4_counterexample_malformed_refs_ok :
    _read_sheet_rows pkgMalformedRefs "S" = Except.ok [[("H", "v")]] := rfl

/-- Claim C4 amended: a cell whose reference string does not start with an
uppercase-letter run followed by a digit fails the reference regex and is
silently skipped by the row materializer (no error is raised); in particular
the references `"1A"` and `"A"` both fail the regex. -/
theorem C4_malformed_refs_skipped :
    (refMatch? "1A" = none ∧ refMatch? "A" = none) ∧
    ∀ (shared : List String) (cell : XCell) (cells : List XCell),
      refMatch? cell.r = none →
      parseRow shared (cell :: cells) = parseRow shared cells := by
  refine ⟨⟨rfl, rfl⟩, ?_⟩
  intro shared cell cells h
  simp [parseRow, List.foldlM_cons, h]

theorem C4_malformed_refs_skipped_witness :
    parseRow [] [{ r := "1A", t := none, v := some "x", inl := none }] =
      parseRow [] [] :=
  C4_malformed_refs_skipped.2 []
    { r := "1A", t := none, v := some "x", inl := none } [] rfl

/-- Claim C5 counterexample: with declared sheets `"DATA INDEX"` then
`"data index"` and the request `"data index"`, the code resolves the first
sheet (case-insensitive match) although the second matches exactly, while
the spec's two-phase order resolves the second. -/
theorem C5_counterexample_single_pass :
    _sheet_path_by_name pkgTwoSheets "data index" =
      Except.ok "xl/worksheets/sheet1.xml" ∧
    sheetPathByNameTwoPhase pkgTwoSheets "data index" =
      Except.ok "xl/worksheets/sheet2.xml" ∧
    ("xl/worksheets/sheet1.xml" : String) ≠ "xl/worksheets/sheet2.xml" :=
  ⟨rfl, rfl, by decide⟩

/-- Claim C5 amended: sheet resolution is a single pass in declaration order;
the first declared sheet matching the request either exactly or
case-insensitively after trimming (checked together, per sheet) is the one
resolved. -/
theorem C5_first_combined_match_wins :
    ∀ (sheets : List SheetDecl) (name : String) (i : Nat)
      (hi : i < sheets.length),
      sheetMatches name (sheets.get ⟨i, hi⟩) = true →
      (∀ j (hj : j < i),
        sheetMatches name (sheets.get ⟨j, Nat.lt_trans hj hi⟩) = false) →
      findTargetSheet sheets name = some (sheets.get ⟨i, hi⟩) := by
  intro sheets
  induction sheets with
  | nil => intro name i hi; exact absurd hi (by simp)
  | cons s rest ih =>
    intro name i hi hmatch hprior
    match i with
    | 0 =>
      simp only [List.get] at hmatch
      rw [findTargetSheet, if_pos hmatch]
      rfl
    | i + 1 =>
      have h0 : sheetMatches name s = false := hprior 0 (Nat.succ_pos i)
      rw [findTargetSheet, if_neg (by simp [h0])]
      exact ih name i (Nat.lt_of_succ_lt_succ hi) hmatch
        (fun j hj => hprior (j + 1) (Nat.succ_lt_succ hj))

theorem C5_first_combined_match_wins_witness :
    findTargetSheet pkgTwoSheets.sheets "data index" =
      some { name := some "DATA INDEX", rid := some "rId1" } :=
  C5_first_combined_match_wins pkgTwoSheets.sheets "data index" 0 (by decide)
    (by decide) (fun j hj => absurd hj (Nat.not_lt_zero j))

/-- Claim C7: the header mapping is row 1 with each cell's text stripped and
blank-stripped columns excluded; every re-keyed output row contains every
header key; and (with distinct header names) the value under each header key
is the row's text at that column, the empty string when the column is absent
from the row. -/
theorem C7_header_totality (header_map row_data : List (Nat × String))
    (hk : (header_map.map Prod.fst).Nodup) :
    buildHeaders header_map =
      header_map.filterMap
        (fun p => if pyStrip p.2 = "" then none else some (p.1, pyStrip p.2)) ∧
    (∀ p ∈ buildHeaders header_map,
      p.2 ∈ (rekeyRow (buildHeaders header_map) row_data).map Prod.fst) ∧
    (((buildHeaders header_map).map Prod.snd).Nodup →
      rekeyRow (buildHeaders header_map) row_data =
        (buildHeaders header_map).map
          (fun p => (p.2, lookupD row_data p.1 ""))) := by
  refine ⟨buildHeaders_eq_filterMap header_map hk, ?_, ?_⟩
  · intro p hp
    exact rekey_go_mem_keys (buildHeaders header_map) row_data [] p hp
  · intro hnames
    exact rekeyRow_eq_map (buildHeaders header_map) row_data hnames

theorem C7_header_totality_witness :
    (buildHeaders [(1, " Name "), (2, "  "), (3, "Age")] =
      [(1, " Name "), (2, "  "), (3, "Age")].filterMap
        (fun p => if pyStrip p.2 = "" then none else some (p.1, pyStrip p.2)) ∧
    (∀ p ∈ buildHeaders [(1, " Name "), (2, "  "), (3, "Age")],
      p.2 ∈ (rekeyRow (buildHeaders [(1, " Name "), (2, "  "), (3, "Age")])
              [(3, "30")]).map Prod.fst) ∧
    (((buildHeaders [(1, " Name "), (2, "  "), (3, "Age")]).map Prod.snd).Nodup →
      rekeyRow (buildHeaders [(1, " Name "), (2, "  "), (3, "Age")])
          [(3, "30")] =
        (buildHeaders [(1, " Name "), (2, "  "), (3, "Age")]).map
          (fun p => (p.2, lookupD [(3, "30")] p.1 "")))) :=
  C7_header_totality [(1, " Name "), (2, "  "), (3, "Age")] [(3, "30")]
    (by decide)

/-- Folding a running maximum from an arbitrary starting value equals the
maximum of the start and the fold from zero. -/
theorem foldl_max_init {β : Type} (g : β → Nat) (l : List β) :
    ∀ a : Nat,
      l.foldl (fun m x => max m (g x)) a =
        max a (l.foldl (fun m x => max m (g x)) 0) := by
  induction l with
  | nil => intro a; simp
  | cons x t ih =>
    intro a
    rw [List.foldl_cons, List.foldl_cons, ih (max a (g x)), ih (max 0 (g x))]
    omega

/-- Claim C8: each computed column width equals
`min(max(max(len(header), max(len(value) for value in column)) + 2, 16), 60)`;
a column whose longest text is 2 characters gets width 16 and one whose
longest value is 100 characters gets width 60. -/
theorem C8_column_width :
    (∀ (headers : List String) (rows : List (List (String × String)))
        (i : Nat) (h : String), headers[i]? = some h →
      (colWidths headers rows)[i]? =
        some (columnWidthSpec h (rows.map (fun row => lookupD row h "")))) ∧
    colWidths ["AB"] [[("AB", "xy")]] = [16] ∧
    colWidths ["H"] [[("H", String.mk (List.replicate 100 'x'))]] = [60] := by
  refine ⟨?_, rfl, rfl⟩
  intro headers rows i h hh
  rw [colWidths, List.getElem?_map, hh, Option.map_some']
  congr 1
  rw [columnWidthSpec, List.foldl_map,
    foldl_max_init (fun row => (lookupD row h "").length) rows h.length]

theorem C8_column_width_witness :
    (colWidths ["AB"] [[("AB", "xy")]])[0]? =
      some (columnWidthSpec "AB"
             ([[("AB", "xy")]].map (fun row => lookupD row "AB" ""))) :=
  C8_column_width.1 ["AB"] [[("AB", "xy")]] 0 "AB" rfl

/-- Claim C9: every row emitted by the writer — the header row included —
consists of exactly one cell per header, in header order with consecutive
column references, each serialized as an inline-string cell whose text is the
value escaped with the ampersand replaced first (so `"a<&b"` becomes
`"a&lt;&amp;b"`, not a double-escaped form). -/
theorem C9_writer_density_escaping :
    (∀ (headers : List String) (rows : List (List (String × String)))
        (row : List (String × String)) (r_idx : Nat),
        row ∈ allRowsW headers rows →
        (writtenRowCellsXml headers row r_idx).length = headers.length ∧
        ∀ (i : Nat) (h : String), headers[i]? = some h →
          (writtenRowCellsXml headers row r_idx)[i]? =
            some (inline_cell
                   (_col_letters ((i + 1 : Nat) : Int) ++ toString r_idx)
                   (lookupD row h ""))) ∧
    escapeXml "a<&b" = "a&lt;&amp;b" := by
  refine ⟨?_, rfl⟩
  intro headers rows row r_idx _
  constructor
  · rw [writtenRowCellsXml, List.length_map, List.enum_length]
  · intro i h hh
    rw [writtenRowCellsXml, List.getElem?_map, List.getElem?_enum, hh]
    rfl

theorem C9_writer_density_escaping_witness :
    (writtenRowCellsXml ["Name"] (pyDict [("Name", "Name")]) 1).length = 1 ∧
    (writtenRowCellsXml ["Name"] (pyDict [("Name", "Name")]) 1)[0]? =
      some (inline_cell (_col_letters ((0 + 1 : Nat) : Int) ++ toString 1)
             (lookupD (pyDict [("Name", "Name")]) "Name" "")) :=
  have h := C9_writer_density_escaping.1 ["Name"] [] (pyDict [("Name", "Name")])
    1 (List.mem_cons_self _ _)
  ⟨h.1, h.2 0 "Name" rfl⟩

end GovAudit
